import Mathlib

/-!
Verification of the @made-simple/discord.js convenience layer (src/src/index.ts,
current revision). The definitions below are a shallow embedding of the parts of
the source the claims are about: the name-keyed registries (JS Map semantics),
the canonical-signature differ used by Client.login, and the default interaction
dispatcher (chat-input commands, context menus, autocomplete, and component
custom-id routing). External SDK collaborators (discord.js builders, REST
transport, the key-value store) are modelled at their interfaces, as the spec
directs.
-/

namespace MadeSimple

/-! ## JS Map semantics (Client.commands / Client.modals / Client.contextMenus)

A JS Map keeps insertion order; set on an existing key replaces the value in
place, set on a fresh key appends; get on a missing key yields undefined.
-/

abbrev JSMap (V : Type) := List (String × V)

def JSMap.get {V : Type} : JSMap V → String → Option V
  | [], _ => none
  | (k', v') :: rest, k => if k' = k then some v' else JSMap.get rest k

def JSMap.set {V : Type} : JSMap V → String → V → JSMap V
  | [], k, v => [(k, v)]
  | (k', v') :: rest, k, v =>
      if k' = k then (k, v) :: rest else (k', v') :: JSMap.set rest k v

/-- Lookup through a possibly-undefined key (JS obj[args[i]] / map.get(args[i])
where args[i] may be out of range). -/
def JSMap.getO {V : Type} (m : JSMap V) : Option String → Option V
  | none => none
  | some k => JSMap.get m k

/-- Repeated insertions in load order: models Client.loadCommand /
Client.addCommand doing this.commands.set(command.data.name, command) for each
loaded definition in turn, starting from the empty registry. -/
def registerAll {V : Type} (loads : List (String × V)) : JSMap V :=
  loads.foldl (fun m d => JSMap.set m d.1 d.2) []

/-- The definition the registry ends up holding for a name: the most recently
loaded one (later list entries were loaded later). -/
def lastLoaded {V : Type} : List (String × V) → String → Option V
  | [], _ => none
  | (k, v) :: rest, name =>
      match lastLoaded rest name with
      | some w => some w
      | none => if k = name then some v else none

def optOr {V : Type} : Option V → Option V → Option V
  | some v, _ => some v
  | none, o => o

/-! ## JSON values and the canonical signature (Client.login differ)

Command/context-menu builders are external collaborators; their toJSON outputs
are modelled as JSON values. Client.login serializes the full list with
JSON.stringify(all, null, 4), then unquotes keys with
.replace(/"([^"]+)":/g, "$1:") and strips all whitespace with
.replace(/\s/g, "").
-/

inductive Json where
  | str : String → Json
  | num : Int → Json
  | bool : Bool → Json
  | arr : List Json → Json
  | obj : List (String × Json) → Json

/-- JSON.stringify string escaping for the characters the model admits. -/
def jsEscapeChar (c : Char) : String :=
  if c = '"' then "\\\""
  else if c = '\\' then "\\\\"
  else if c = '\n' then "\\n"
  else if c = '\t' then "\\t"
  else if c = '\r' then "\\r"
  else String.singleton c

def jsQuote (s : String) : String :=
  "\"" ++ String.join (s.data.map jsEscapeChar) ++ "\""

/-- Indentation produced by JSON.stringify(value, null, 4) at nesting depth d. -/
def indentOf (d : Nat) : String := String.mk (List.replicate (4 * d) ' ')

mutual

/-- JSON.stringify(value, null, 4): pretty-printed with four-space indent. -/
def stringifyJson : Nat → Json → String
  | _, .str s => jsQuote s
  | _, .num n => toString n
  | _, .bool b => if b then "true" else "false"
  | _, .arr [] => "[]"
  | d, .arr (x :: xs) =>
      "[\n" ++ indentOf (d + 1) ++ stringifyJson (d + 1) x
        ++ stringifyArrRest (d + 1) xs ++ "\n" ++ indentOf d ++ "]"
  | _, .obj [] => "\x7b\x7d"
  | d, .obj ((k, v) :: fs) =>
      "\x7b\n" ++ indentOf (d + 1) ++ jsQuote k ++ ": " ++ stringifyJson (d + 1) v
        ++ stringifyObjRest (d + 1) fs ++ "\n" ++ indentOf d ++ "\x7d"

def stringifyArrRest : Nat → List Json → String
  | _, [] => ""
  | d, x :: xs => ",\n" ++ indentOf d ++ stringifyJson d x ++ stringifyArrRest d xs

def stringifyObjRest : Nat → List (String × Json) → String
  | _, [] => ""
  | d, (k, v) :: fs =>
      ",\n" ++ indentOf d ++ jsQuote k ++ ": " ++ stringifyJson d v ++ stringifyObjRest d fs

end

/-- One pass of the global regex replace /"([^"]+)":/ -> "$1:": scan left to
right; at a double quote, if a nonempty run of non-quote characters is followed
by a closing quote and a colon, drop the two quotes; otherwise keep scanning.
The fuel argument (always the input length at the top call) only serves
termination; every recursive call consumes at least one input character. -/
def unquoteKeysAux : Nat → List Char → List Char
  | 0, cs => cs
  | _ + 1, [] => []
  | fuel + 1, c :: rest =>
    if c = '"' then
      match rest.takeWhile (fun x => x != '"'), rest.dropWhile (fun x => x != '"') with
      | [], _ => c :: unquoteKeysAux fuel rest
      | key, '"' :: ':' :: rest2 => key ++ ':' :: unquoteKeysAux fuel rest2
      | _, _ => c :: unquoteKeysAux fuel rest
    else c :: unquoteKeysAux fuel rest

def unquoteKeys (cs : List Char) : List Char := unquoteKeysAux cs.length cs

/-- The whitespace class \s of the second replace, restricted to the characters
the model admits. -/
def isJsWhitespace (c : Char) : Bool :=
  c = ' ' || c = '\n' || c = '\t' || c = '\r' || c = '\x0b' || c = '\x0c'

def stripWhitespace (cs : List Char) : List Char :=
  cs.filter (fun c => !isJsWhitespace c)

/-- The canonical signature Client.login computes from the full exported
command/context-menu list (the parsedString local). -/
def canonicalSignature (all : List Json) : String :=
  String.mk (stripWhitespace (unquoteKeys (stringifyJson 0 (Json.arr all)).data))

/-! ## Client.login: configuration check, differ, registration -/

/-- JS truthiness of a possibly-undefined string (!token): undefined and the
empty string are falsy. -/
def truthy : Option String → Bool
  | none => false
  | some s => s != ""

/-- Inputs Client.login reads: the token argument, process.env.DISCORD_TOKEN,
process.env.CLIENT_ID, this.user?.id, and whether rest.put throws. -/
structure LoginInput where
  tokenArg : Option String
  envToken : Option String
  envClientId : Option String
  userId : Option String
  restThrows : Bool

/-- Observable outcome of one Client.login run: whether process.exit(1) was
reached, whether the REST transport was invoked, and the value persisted under
the reserved "%registered_applications%" store key afterwards. -/
structure LoginResult where
  exited : Bool
  restCalled : Bool
  store : String
deriving DecidableEq

/-- Client.login (current revision): token ??= env; clientId = env ?? user id;
!token || !clientId is fatal; otherwise the canonical signature of the command
set is compared against the stored one, skipping registration when equal and
non-empty; otherwise rest.put is invoked, a throw being fatal with the store
left unchanged, and success persisting the new signature. -/
def loginModel (inp : LoginInput) (all : List Json) (store : String) : LoginResult :=
  let token := inp.tokenArg <|> inp.envToken
  let clientId := inp.envClientId <|> inp.userId
  if !truthy token || !truthy clientId then ⟨true, false, store⟩
  else
    let parsedString := canonicalSignature all
    if store = parsedString ∧ parsedString ≠ "" then ⟨false, false, store⟩
    else if inp.restThrows then ⟨true, true, store⟩
    else ⟨false, true, parsedString⟩

/-! ## The default interaction handler (Client.useDefaultInteractionHandler)

Executors are modelled by whether the invocation throws; handler identity in
the component tables is an opaque string naming the registered sub-executor.
-/

inductive ExecBehavior where
  | ok
  | throws
deriving DecidableEq

/-- Reply affordances the SDK exposes on an interaction. The exported reply
helper (line 113) picks editReply when the interaction is deferred or already
replied, plain reply otherwise; followUp is the third affordance, which the
current revision never selects. -/
inductive ReplyMode where
  | fresh
  | edited
  | followedUp
deriving DecidableEq

def replyMode (deferred replied : Bool) : ReplyMode :=
  if deferred || replied then .edited else .fresh

/-- PermissionsBitField.has of the SDK, modelled as bitfield containment. -/
def permsHas (memberPerms required : Nat) : Bool :=
  memberPerms &&& required == required

/-- Observable outcome of dispatching one command / context-menu interaction. -/
inductive Outcome where
  | notFound (name : String)
  | noPermission
  | executedOk
  | errorReplied (mode : ReplyMode)
  | typeError
deriving DecidableEq

/-- Invoking an executor inside the dispatcher's isolating try/catch: a throw
is caught, logged, and answered through the reply helper. -/
def runExec (deferred replied : Bool) : ExecBehavior → Outcome
  | .ok => .executedOk
  | .throws => .errorReplied (replyMode deferred replied)

/-- The per-command component sub-executor tables (selectMenus / buttons /
modals object literals of TopLevelCommandData), mapping a local id to the
registered handler. -/
structure HandlerTables where
  selectMenus : JSMap String
  buttons : JSMap String
  modals : JSMap String
deriving DecidableEq

structure SubcommandEntry where
  execute : ExecBehavior
  autocomplete : Option ExecBehavior
  tables : HandlerTables
deriving DecidableEq

structure SubcommandGroupEntry where
  subcommands : JSMap SubcommandEntry
deriving DecidableEq

/-- CommandData: a plain top-level command. The autocomplete field is part of
the interface (TopLevelCommandData) even though the current dispatcher never
reads it for plain commands. -/
structure PlainCommandEntry where
  permissions : Option Nat
  execute : ExecBehavior
  autocomplete : Option ExecBehavior
  tables : HandlerTables
deriving DecidableEq

/-- SubcommandIndexData after loading: loadSubcommand defaults the subcommand
maps and synthesizes the dispatch executor, so both are present here. -/
structure IndexCommandEntry where
  permissions : Option Nat
  execute : ExecBehavior
  subcommands : JSMap SubcommandEntry
  subcommandGroups : JSMap SubcommandGroupEntry
deriving DecidableEq

/-- An entry of Client.commands, discriminated the way the dispatcher does it
(command.interface === "CommandData"). -/
inductive CommandEntry where
  | plain : PlainCommandEntry → CommandEntry
  | index : IndexCommandEntry → CommandEntry
deriving DecidableEq

def CommandEntry.permissions : CommandEntry → Option Nat
  | .plain c => c.permissions
  | .index c => c.permissions

def CommandEntry.execute : CommandEntry → ExecBehavior
  | .plain c => c.execute
  | .index c => c.execute

/-- command.subcommandGroups on a registry entry: undefined on a plain
CommandData object (the autocomplete branch casts and optional-chains). -/
def CommandEntry.subGroups : CommandEntry → Option (JSMap SubcommandGroupEntry)
  | .plain _ => none
  | .index c => some c.subcommandGroups

def CommandEntry.subs : CommandEntry → Option (JSMap SubcommandEntry)
  | .plain _ => none
  | .index c => some c.subcommands

/-- A chat-input command interaction as the dispatcher reads it. The member
permission set is absent (undefined) outside a guild. -/
structure ChatInteraction where
  commandName : String
  inGuild : Bool
  member : Option Nat
  deferred : Bool
  replied : Bool

/-- The isChatInputCommand branch (lines 305-338): unknown name replies "could
not find command"; inside a guild a required permission the member lacks
replies "no permission"; otherwise the executor runs under the isolating
try/catch. Dereferencing an absent member's permission set would be a
TypeError. -/
def dispatchChatInput (commands : JSMap CommandEntry) (i : ChatInteraction) : Outcome :=
  match JSMap.get commands i.commandName with
  | none => .notFound i.commandName
  | some command =>
    if i.inGuild then
      match command.permissions with
      | some required =>
        match i.member with
        | none => .typeError
        | some p =>
          if permsHas p required then runExec i.deferred i.replied command.execute
          else .noPermission
      | none => runExec i.deferred i.replied command.execute
    else runExec i.deferred i.replied command.execute

structure ContextMenuEntry where
  permissions : Option Nat
  execute : ExecBehavior
deriving DecidableEq

inductive CtxKind where
  | user
  | message
deriving DecidableEq

/-- Client.contextMenus: one namespace per context-menu kind. -/
structure ContextMenus where
  user : JSMap ContextMenuEntry
  message : JSMap ContextMenuEntry
deriving DecidableEq

def ContextMenus.forKind (m : ContextMenus) : CtxKind → JSMap ContextMenuEntry
  | .user => m.user
  | .message => m.message

structure ContextMenuInteraction where
  commandName : String
  kind : CtxKind
  inGuild : Bool
  member : Option Nat
  deferred : Bool
  replied : Bool

/-- The isContextMenuCommand branch (lines 339-373). Unlike the chat-input
branch, the permission check is not guarded by interaction.inGuild(), so with
permissions set and no member present, (member?.permissions).has throws. -/
def dispatchContextMenu (menus : ContextMenus) (i : ContextMenuInteraction) : Outcome :=
  match JSMap.get (menus.forKind i.kind) i.commandName with
  | none => .notFound i.commandName
  | some context =>
    match context.permissions with
    | some required =>
      match i.member with
      | none => .typeError
      | some p =>
        if permsHas p required then runExec i.deferred i.replied context.execute
        else .noPermission
    | none => runExec i.deferred i.replied context.execute

inductive AutoOutcome where
  | unanswered
  | sentinel
  | invoked
  | invokedLoggedError
deriving DecidableEq

/-- The isAutocomplete branch (lines 374-400): the registry entry is cast to
SubcommandIndexData and an executor is looked up only through the
group/subcommand maps; with none found the sentinel ERROR/autocompleteNotFound
option is sent; an unknown command name returns without responding. -/
def dispatchAutocomplete (commands : JSMap CommandEntry) (commandName : String)
    (subcommand group : Option String) : AutoOutcome :=
  match JSMap.get commands commandName with
  | none => .unanswered
  | some command =>
    let autocomplete : Option ExecBehavior :=
      match subcommand with
      | none => none
      | some sub =>
        match group with
        | some g =>
          (((command.subGroups.bind (fun gs => JSMap.get gs g)).bind
            (fun ge => JSMap.get ge.subcommands sub)).bind (fun se => se.autocomplete))
        | none =>
          ((command.subs.bind (fun ss => JSMap.get ss sub)).bind (fun se => se.autocomplete))
    match autocomplete with
    | none => .sentinel
    | some .ok => .invoked
    | some .throws => .invokedLoggedError

/-! ## Component custom-id routing -/

/-- String.prototype.split("-") of JS. -/
def splitDashAux : List Char → List Char → List String
  | [], acc => [String.mk acc.reverse]
  | c :: cs, acc =>
      if c = '-' then String.mk acc.reverse :: splitDashAux cs []
      else splitDashAux cs (c :: acc)

def splitDash (s : String) : List String := splitDashAux s.data []

/-- args[n] of JS: undefined past the end. -/
def argAt : List String → Nat → Option String
  | [], _ => none
  | a :: _, 0 => some a
  | _ :: rest, n + 1 => argAt rest n

/-- The toJSON data of a ModalBuilder as loadModalsFrom reads it
(modal.data.data.custom_id, modal.data.data.title). -/
structure ModalBuilderData where
  custom_id : Option String
  title : Option String
deriving DecidableEq

/-- An entry of Client.modals; the handler string names its executor. -/
structure ModalEntry where
  data : ModalBuilderData
  handler : String
deriving DecidableEq

inductive CompKind where
  | selectMenu
  | modalSubmit
  | button
deriving DecidableEq

/-- The lookup discriminator of the component branch (lines 404-409). -/
def HandlerTables.forKind (t : HandlerTables) : CompKind → JSMap String
  | .selectMenu => t.selectMenus
  | .modalSubmit => t.modals
  | .button => t.buttons

inductive CompOutcome where
  | ignored
  | invoked (handler : String) (args : List String)
deriving DecidableEq

/-- The component branch (lines 401-468) on the already-split custom id. An
unknown first segment falls back (modal submissions only) to Client.modals; a
found entry there has args shifted by one and then receives args.slice(1). A
plain command takes its per-kind table at args[1] and passes args.slice(2). A
subcommand-index command first tries subcommandGroups at args[1] (consuming
args[2] for the subcommand, args[3] for the handler key, passing args.slice(4)),
else subcommands at args[1] (handler key args[2], passing args.slice(3)). Every
unresolved step is a silent no-op. -/
def dispatchComponentArgs (commands : JSMap CommandEntry) (modals : JSMap ModalEntry)
    (kind : CompKind) (args : List String) : CompOutcome :=
  match JSMap.getO commands (argAt args 0) with
  | none =>
    match kind with
    | .modalSubmit =>
      match JSMap.getO modals (argAt args 0) with
      | none => .ignored
      | some mdl => .invoked mdl.handler (args.drop 2)
    | _ => .ignored
  | some (.plain c) =>
    match JSMap.getO (c.tables.forKind kind) (argAt args 1) with
    | none => .ignored
    | some h => .invoked h (args.drop 2)
  | some (.index c) =>
    match JSMap.getO c.subcommandGroups (argAt args 1) with
    | some g =>
      match JSMap.getO g.subcommands (argAt args 2) with
      | none => .ignored
      | some sc =>
        match JSMap.getO (sc.tables.forKind kind) (argAt args 3) with
        | none => .ignored
        | some h => .invoked h (args.drop 4)
    | none =>
      match JSMap.getO c.subcommands (argAt args 1) with
      | none => .ignored
      | some sc =>
        match JSMap.getO (sc.tables.forKind kind) (argAt args 2) with
        | none => .ignored
        | some h => .invoked h (args.drop 3)

def dispatchComponent (commands : JSMap CommandEntry) (modals : JSMap ModalEntry)
    (kind : CompKind) (customId : String) : CompOutcome :=
  dispatchComponentArgs commands modals kind (splitDash customId)

/-! ## Modal folder loading (Client.loadModalsFrom) -/

/-- The registry key loadModalsFrom computes:
const name = modal.data.data.custom_id ?? modal.data.data.title; if (!name)
return. The ?? falls through only on a nullish custom_id, while !name also
rejects the empty string. none means the modal is skipped. -/
def modalRegistryKey (d : ModalBuilderData) : Option String :=
  match d.custom_id <|> d.title with
  | none => none
  | some s => if s = "" then none else some s

/-- Modelled from the spec: the claimed keying rule, by its words alone - the
key is the custom id when present, otherwise the title (skipped only when
neither is present). Kept for comparison against modalRegistryKey. -/
def claimedModalKey (d : ModalBuilderData) : Option String :=
  d.custom_id <|> d.title

/-- loadModalsFrom over the definitions a directory yields, in load order. -/
def loadModalsFrom (reg : JSMap ModalEntry) (ms : List ModalEntry) : JSMap ModalEntry :=
  ms.foldl
    (fun r m =>
      match modalRegistryKey m.data with
      | none => r
      | some k => JSMap.set r k m) reg

/-! ## Registry lemmas -/

theorem JSMap.get_set {V : Type} (m : JSMap V) (k k' : String) (v : V) :
    JSMap.get (JSMap.set m k v) k' = if k = k' then some v else JSMap.get m k' := by
  induction m with
  | nil => simp [JSMap.set, JSMap.get]
  | cons p rest ih =>
    obtain ⟨k0, v0⟩ := p
    by_cases h0 : k0 = k
    · subst h0
      by_cases h1 : k0 = k'
      · subst h1; simp [JSMap.set, JSMap.get]
      · simp [JSMap.set, JSMap.get, h1]
    · by_cases h1 : k0 = k'
      · subst h1
        simp [JSMap.set, JSMap.get, h0, (Ne.symm h0 : k ≠ k0)]
      · simp [JSMap.set, JSMap.get, h0, h1, ih]

theorem get_foldl_set {V : Type} (loads : List (String × V)) (m : JSMap V) (name : String) :
    JSMap.get (loads.foldl (fun acc d => JSMap.set acc d.1 d.2) m) name
      = optOr (lastLoaded loads name) (JSMap.get m name) := by
  induction loads generalizing m with
  | nil => simp [lastLoaded, optOr]
  | cons p rest ih =>
    obtain ⟨k, v⟩ := p
    simp only [List.foldl_cons]
    rw [ih, JSMap.get_set]
    simp only [lastLoaded]
    cases hrest : lastLoaded rest name with
    | some w => simp [optOr]
    | none =>
      by_cases hk : k = name
      · simp [optOr, hk]
      · simp [optOr, hk]

theorem lastLoaded_of_absent {V : Type} (loads : List (String × V)) (name : String)
    (habs : ∀ p ∈ loads, p.1 ≠ name) : lastLoaded loads name = none := by
  induction loads with
  | nil => rfl
  | cons p rest ih =>
    obtain ⟨k, v⟩ := p
    have hk : k ≠ name := habs (k, v) (List.mem_cons_self _ _)
    have hrest : lastLoaded rest name = none :=
      ih fun q hq => habs q (List.mem_cons_of_mem _ hq)
    simp [lastLoaded, hrest, hk]

/-! ## Canonical-signature lemmas -/

theorem data_head_append (s t : String) (c : Char) (l : List Char)
    (h : s.data = c :: l) : (s ++ t).data = c :: (l ++ t.data) := by
  rw [String.data_append, h]; rfl

theorem stringify_arr_head (all : List Json) :
    ∃ t, (stringifyJson 0 (Json.arr all)).data = '[' :: t := by
  cases all with
  | nil => exact ⟨[']'], rfl⟩
  | cons x xs =>
    have h0 : ("[\n" : String).data = '[' :: ['\n'] := rfl
    have h1 := data_head_append "[\n" (indentOf 1) _ _ h0
    have h2 := data_head_append _ (stringifyJson 1 x) _ _ h1
    have h3 := data_head_append _ (stringifyArrRest 1 xs) _ _ h2
    have h4 := data_head_append _ "\n" _ _ h3
    have h5 := data_head_append _ (indentOf 0) _ _ h4
    have h6 := data_head_append _ "]" _ _ h5
    exact ⟨_, h6⟩

theorem unquoteKeysAux_cons_ne (n : Nat) (c : Char) (rest : List Char) (h : ¬c = '"') :
    unquoteKeysAux (n + 1) (c :: rest) = c :: unquoteKeysAux n rest := by
  simp [unquoteKeysAux, h]

theorem stripWhitespace_cons_keep (c : Char) (l : List Char) (h : isJsWhitespace c = false) :
    stripWhitespace (c :: l) = c :: stripWhitespace l := by
  simp [stripWhitespace, List.filter_cons, h]

theorem mk_cons_ne_empty (c : Char) (l : List Char) : String.mk (c :: l) ≠ "" := by
  intro h
  exact List.cons_ne_nil c l (show c :: l = [] from congrArg String.data h)

theorem canonicalSignature_shape (all : List Json) :
    ∃ l, canonicalSignature all = String.mk ('[' :: l) := by
  obtain ⟨t, ht⟩ := stringify_arr_head all
  refine ⟨stripWhitespace (unquoteKeysAux t.length t), ?_⟩
  rw [canonicalSignature, ht, unquoteKeys]
  simp only [List.length_cons]
  rw [unquoteKeysAux_cons_ne _ _ _ (by decide),
    stripWhitespace_cons_keep _ _ (by decide)]

theorem canonicalSignature_ne_empty (all : List Json) : canonicalSignature all ≠ "" := by
  obtain ⟨l, hl⟩ := canonicalSignature_shape all
  rw [hl]
  exact mk_cons_ne_empty _ _

/-! ## Claim theorems -/

/-- Claim C8: for every sequence of command insertions, inserting a definition
under an already-present name overwrites the earlier entry (last loaded wins)
without raising any error, so after all loads settle each name maps to exactly
the most recently loaded definition for it, and lookup of an unregistered name
returns an absent-value signal (none) rather than throwing. -/
theorem claim_c8_registry_last_wins {V : Type} (m : JSMap V) (k : String) (v : V)
    (loads : List (String × V)) (name : String) :
    JSMap.get (JSMap.set m k v) k = some v
    ∧ (∀ k', k' ≠ k → JSMap.get (JSMap.set m k v) k' = JSMap.get m k')
    ∧ JSMap.get (registerAll loads) name = lastLoaded loads name
    ∧ ((∀ p ∈ loads, p.1 ≠ name) → JSMap.get (registerAll loads) name = none) := by
  refine ⟨?_, ?_, ?_, ?_⟩
  · rw [JSMap.get_set]; simp
  · intro k' hk
    rw [JSMap.get_set, if_neg (Ne.symm hk)]
  · rw [registerAll, get_foldl_set]
    cases lastLoaded loads name <;> simp [optOr, JSMap.get]
  · intro habs
    rw [registerAll, get_foldl_set, lastLoaded_of_absent _ _ habs]
    simp [optOr, JSMap.get]

theorem claim_c8_registry_last_wins_witness :
    JSMap.get (JSMap.set [("a", (1 : Nat))] "a" 2) "a" = some 2
    ∧ JSMap.get (JSMap.set [("a", (1 : Nat))] "a" 2) "b" = JSMap.get [("a", (1 : Nat))] "b"
    ∧ JSMap.get (registerAll [("x", (1 : Nat)), ("x", 2)]) "x"
        = lastLoaded [("x", (1 : Nat)), ("x", 2)] "x"
    ∧ JSMap.get (registerAll [("y", (1 : Nat))]) "z" = none :=
  ⟨(claim_c8_registry_last_wins [("a", 1)] "a" 2 [] "x").1,
   (claim_c8_registry_last_wins [("a", 1)] "a" 2 [] "x").2.1 "b" (by decide),
   (claim_c8_registry_last_wins [("a", 1)] "a" 2 [("x", 1), ("x", 2)] "x").2.2.1,
   (claim_c8_registry_last_wins [("a", 1)] "a" 2 [("y", 1)] "z").2.2.2 (by decide)⟩

/-- Claim C1: the canonical signature function is deterministic and idempotent
(serializing the same definition set twice yields byte-identical strings); on
login, a stored signature equal to the computed (always non-empty) one skips
the remote registration call; a registration that is performed persists the new
signature on success, so a second login with unchanged definitions never
invokes the remote transport. -/
theorem claim_c1_signature_skip (all : List Json) (inp : LoginInput) (store : String)
    (htok : truthy (inp.tokenArg <|> inp.envToken) = true)
    (hcid : truthy (inp.envClientId <|> inp.userId) = true)
    (hrest : inp.restThrows = false) :
    canonicalSignature all = canonicalSignature all
    ∧ (store = canonicalSignature all →
        loginModel inp all store = ⟨false, false, store⟩)
    ∧ ((loginModel inp all store).restCalled = true →
        (loginModel inp all store).store = canonicalSignature all)
    ∧ (loginModel inp all (loginModel inp all store).store).restCalled = false := by
  have hne := canonicalSignature_ne_empty all
  by_cases hs : store = canonicalSignature all
  · refine ⟨rfl, ?_, ?_, ?_⟩ <;>
      simp [loginModel, htok, hcid, hrest, hs, hne]
  · refine ⟨rfl, fun h => absurd h hs, ?_, ?_⟩ <;>
      simp [loginModel, htok, hcid, hrest, hs, hne]

theorem claim_c1_signature_skip_witness :
    canonicalSignature [] = canonicalSignature []
    ∧ ("" = canonicalSignature [] →
        loginModel ⟨some "t", none, some "c", none, false⟩ [] "" = ⟨false, false, ""⟩)
    ∧ ((loginModel ⟨some "t", none, some "c", none, false⟩ [] "").restCalled = true →
        (loginModel ⟨some "t", none, some "c", none, false⟩ [] "").store = canonicalSignature [])
    ∧ (loginModel ⟨some "t", none, some "c", none, false⟩ []
        (loginModel ⟨some "t", none, some "c", none, false⟩ [] "").store).restCalled = false :=
  claim_c1_signature_skip [] ⟨some "t", none, some "c", none, false⟩ "" (by decide) (by decide) rfl

/-- Claim C7: at login, a missing (or empty) token or client id is fatal: the
run exits with no remote call and the persisted signature unchanged; likewise a
throwing registration transport call exits with the persisted signature left
unchanged (it is only updated after a successful registration call). -/
theorem claim_c7_fatal_errors (inp : LoginInput) (all : List Json) (store : String) :
    ((truthy (inp.tokenArg <|> inp.envToken) = false
        ∨ truthy (inp.envClientId <|> inp.userId) = false) →
      loginModel inp all store = ⟨true, false, store⟩)
    ∧ (truthy (inp.tokenArg <|> inp.envToken) = true →
       truthy (inp.envClientId <|> inp.userId) = true →
       store ≠ canonicalSignature all → inp.restThrows = true →
       loginModel inp all store = ⟨true, true, store⟩) := by
  constructor
  · intro h
    rcases h with h | h <;> simp [loginModel, h]
  · intro htok hcid hs hrest
    simp [loginModel, htok, hcid, hs, hrest]

theorem claim_c7_fatal_errors_witness :
    loginModel ⟨none, none, some "c", none, false⟩ [] "s" = ⟨true, false, "s"⟩
    ∧ loginModel ⟨some "t", none, some "c", none, true⟩ [] "x" = ⟨true, true, "x"⟩ :=
  ⟨(claim_c7_fatal_errors ⟨none, none, some "c", none, false⟩ [] "s").1 (Or.inl (by decide)),
   (claim_c7_fatal_errors ⟨some "t", none, some "c", none, true⟩ [] "x").2
     (by decide) (by decide) (by decide) rfl⟩

/-- Claim C2: for a resolved chat-input command carrying a permission
requirement, the member-permission check runs (replying "no permission" and not
invoking the executor when the member lacks it) exactly when the interaction is
in a guild; outside a guild the check is skipped entirely and the executor is
invoked. -/
theorem claim_c2_permission_iff_guild (commands : JSMap CommandEntry)
    (i : ChatInteraction) (command : CommandEntry)
    (hfind : JSMap.get commands i.commandName = some command) :
    (i.inGuild = false →
      dispatchChatInput commands i = runExec i.deferred i.replied command.execute)
    ∧ (∀ req p, i.inGuild = true → command.permissions = some req → i.member = some p →
        permsHas p req = false → dispatchChatInput commands i = Outcome.noPermission)
    ∧ (∀ req p, i.inGuild = true → command.permissions = some req → i.member = some p →
        permsHas p req = true →
        dispatchChatInput commands i = runExec i.deferred i.replied command.execute)
    ∧ (∀ d r b, runExec d r b ≠ Outcome.noPermission) := by
  refine ⟨?_, ?_, ?_, ?_⟩
  · intro hg
    simp [dispatchChatInput, hfind, hg]
  · intro req p hg hperm hm hlacks
    simp [dispatchChatInput, hfind, hg, hperm, hm, hlacks]
  · intro req p hg hperm hm hhas
    simp [dispatchChatInput, hfind, hg, hperm, hm, hhas]
  · intro d r b
    cases b <;> simp [runExec]

theorem claim_c2_permission_iff_guild_witness :
    dispatchChatInput [("go", CommandEntry.plain ⟨some 4, ExecBehavior.ok, none, ⟨[], [], []⟩⟩)]
      ⟨"go", false, none, false, false⟩
      = runExec false false (CommandEntry.plain ⟨some 4, ExecBehavior.ok, none, ⟨[], [], []⟩⟩).execute
    ∧ dispatchChatInput [("go", CommandEntry.plain ⟨some 4, ExecBehavior.ok, none, ⟨[], [], []⟩⟩)]
      ⟨"go", true, some 0, false, false⟩ = Outcome.noPermission
    ∧ dispatchChatInput [("go", CommandEntry.plain ⟨some 4, ExecBehavior.ok, none, ⟨[], [], []⟩⟩)]
      ⟨"go", true, some 4, false, false⟩
      = runExec false false (CommandEntry.plain ⟨some 4, ExecBehavior.ok, none, ⟨[], [], []⟩⟩).execute :=
  ⟨(claim_c2_permission_iff_guild _ ⟨"go", false, none, false, false⟩
      (CommandEntry.plain ⟨some 4, ExecBehavior.ok, none, ⟨[], [], []⟩⟩) (by decide)).1 rfl,
   (claim_c2_permission_iff_guild _ ⟨"go", true, some 0, false, false⟩
      (CommandEntry.plain ⟨some 4, ExecBehavior.ok, none, ⟨[], [], []⟩⟩) (by decide)).2.1
     4 0 rfl rfl rfl (by decide),
   (claim_c2_permission_iff_guild _ ⟨"go", true, some 4, false, false⟩
      (CommandEntry.plain ⟨some 4, ExecBehavior.ok, none, ⟨[], [], []⟩⟩) (by decide)).2.2.1
     4 4 rfl rfl rfl (by decide)⟩

/-- Claim C9: for a resolved context-menu definition carrying a permission
requirement, the permission check is evaluated unconditionally - it is not
guarded by an in-guild test - so with no member present (as outside a guild)
the dispatcher dereferences the absent member's permission set (a TypeError)
instead of skipping the check, whatever the in-guild flag says. -/
theorem claim_c9_ctxmenu_unconditional_check (menus : ContextMenus) (name : String)
    (kind : CtxKind) (g d r : Bool) (context : ContextMenuEntry) (req : Nat)
    (hfind : JSMap.get (menus.forKind kind) name = some context)
    (hperm : context.permissions = some req) :
    dispatchContextMenu menus ⟨name, kind, g, none, d, r⟩ = Outcome.typeError := by
  simp [dispatchContextMenu, hfind, hperm]

theorem claim_c9_ctxmenu_unconditional_check_witness :
    dispatchContextMenu ⟨[("Report", ⟨some 8, ExecBehavior.ok⟩)], []⟩
      ⟨"Report", CtxKind.user, false, none, false, false⟩ = Outcome.typeError
    ∧ dispatchContextMenu ⟨[("Report", ⟨some 8, ExecBehavior.ok⟩)], []⟩
      ⟨"Report", CtxKind.user, true, none, false, false⟩ = Outcome.typeError :=
  ⟨claim_c9_ctxmenu_unconditional_check ⟨[("Report", ⟨some 8, ExecBehavior.ok⟩)], []⟩
      "Report" CtxKind.user false false false ⟨some 8, ExecBehavior.ok⟩ 8 (by decide) rfl,
   claim_c9_ctxmenu_unconditional_check ⟨[("Report", ⟨some 8, ExecBehavior.ok⟩)], []⟩
      "Report" CtxKind.user true false false ⟨some 8, ExecBehavior.ok⟩ 8 (by decide) rfl⟩

/-- Claim C6 (code-bug evidence): a throwing executor is caught locally and
answered with the generic failure message, and the error is never propagated;
but on an interaction that is already deferred/replied the catch block answers
through interaction.editReply, not through a follow-up as the claim (and the
reply helper's own doc comment) state. -/
theorem claim_c6_catch_edits_instead_of_followup :
    dispatchChatInput [("boom", CommandEntry.plain ⟨none, ExecBehavior.throws, none, ⟨[], [], []⟩⟩)]
      ⟨"boom", false, none, true, false⟩ = Outcome.errorReplied ReplyMode.edited
    ∧ dispatchChatInput [("boom", CommandEntry.plain ⟨none, ExecBehavior.throws, none, ⟨[], [], []⟩⟩)]
      ⟨"boom", false, none, false, false⟩ = Outcome.errorReplied ReplyMode.fresh
    ∧ Outcome.errorReplied ReplyMode.edited ≠ Outcome.errorReplied ReplyMode.followedUp
    ∧ Outcome.errorReplied ReplyMode.edited ≠ Outcome.typeError := by
  refine ⟨by decide, by decide, by decide, by decide⟩

/-- Claim C5 (code-bug evidence): an autocomplete interaction for a registered
top-level command with an attached autocomplete executor is answered with the
sentinel "no autocomplete" entry instead of reaching that executor (the
dispatcher only resolves autocomplete through the subcommand maps), and an
autocomplete interaction for an unknown command name is left unanswered. -/
theorem claim_c5_autocomplete_dead_field :
    dispatchAutocomplete
      [("ping", CommandEntry.plain ⟨none, ExecBehavior.ok, some ExecBehavior.ok, ⟨[], [], []⟩⟩)]
      "ping" none none = AutoOutcome.sentinel
    ∧ AutoOutcome.sentinel ≠ AutoOutcome.invoked
    ∧ dispatchAutocomplete [] "missing" none none = AutoOutcome.unanswered := by
  refine ⟨by decide, by decide, by decide⟩

/-- Claim C3: with the first segment naming a registered subcommand-index
command, routing consumes one segment per nesting level: a 3-segment id routes
segment 2 as the subcommand and segment 3 as the per-kind handler key with no
trailing arguments, a 4-segment id additionally passes exactly the 4th segment;
when a subcommand group matches segment 2, one further segment is consumed for
the group level before the handler key. -/
theorem claim_c3_component_segments (commands : JSMap CommandEntry) (modals : JSMap ModalEntry)
    (kind : CompKind) (c s k a : String) (ic : IndexCommandEntry) (sc : SubcommandEntry)
    (hdl : String)
    (hc : JSMap.get commands c = some (CommandEntry.index ic))
    (hg : JSMap.get ic.subcommandGroups s = none)
    (hs : JSMap.get ic.subcommands s = some sc)
    (hh : JSMap.get (sc.tables.forKind kind) k = some hdl) :
    dispatchComponentArgs commands modals kind [c, s, k] = CompOutcome.invoked hdl []
    ∧ dispatchComponentArgs commands modals kind [c, s, k, a] = CompOutcome.invoked hdl [a]
    ∧ (∀ (gname s2 k2 a2 : String) (ge : SubcommandGroupEntry) (sc2 : SubcommandEntry)
        (hdl2 : String),
        JSMap.get ic.subcommandGroups gname = some ge →
        JSMap.get ge.subcommands s2 = some sc2 →
        JSMap.get (sc2.tables.forKind kind) k2 = some hdl2 →
        dispatchComponentArgs commands modals kind [c, gname, s2, k2]
          = CompOutcome.invoked hdl2 []
        ∧ dispatchComponentArgs commands modals kind [c, gname, s2, k2, a2]
          = CompOutcome.invoked hdl2 [a2]) := by
  refine ⟨?_, ?_, ?_⟩
  · simp [dispatchComponentArgs, JSMap.getO, argAt, hc, hg, hs, hh]
  · simp [dispatchComponentArgs, JSMap.getO, argAt, hc, hg, hs, hh]
  · intro gname s2 k2 a2 ge sc2 hdl2 hge hsc2 hh2
    constructor <;> simp [dispatchComponentArgs, JSMap.getO, argAt, hc, hge, hsc2, hh2]

def c3Subcommand : SubcommandEntry :=
  ⟨ExecBehavior.ok, none, ⟨[], [("btn1", "handlerA")], []⟩⟩

def c3GroupSubcommand : SubcommandEntry :=
  ⟨ExecBehavior.ok, none, ⟨[], [("gk", "handlerB")], []⟩⟩

def c3Group : SubcommandGroupEntry := ⟨[("gs", c3GroupSubcommand)]⟩

def c3Index : IndexCommandEntry :=
  ⟨none, ExecBehavior.ok, [("sub1", c3Subcommand)], [("grp", c3Group)]⟩

def c3Commands : JSMap CommandEntry := [("cmdA", CommandEntry.index c3Index)]

theorem claim_c3_component_segments_witness :
    dispatchComponent c3Commands [] CompKind.button "cmdA-sub1-btn1"
      = CompOutcome.invoked "handlerA" []
    ∧ dispatchComponent c3Commands [] CompKind.button "cmdA-sub1-btn1-x"
      = CompOutcome.invoked "handlerA" ["x"]
    ∧ dispatchComponent c3Commands [] CompKind.button "cmdA-grp-gs-gk"
      = CompOutcome.invoked "handlerB" []
    ∧ dispatchComponent c3Commands [] CompKind.button "cmdA-grp-gs-gk-y"
      = CompOutcome.invoked "handlerB" ["y"] := by
  have hmain := claim_c3_component_segments c3Commands [] CompKind.button
    "cmdA" "sub1" "btn1" "x" c3Index c3Subcommand "handlerA"
    (by decide) (by decide) (by decide) (by decide)
  have hgrp := hmain.2.2 "grp" "gs" "gk" "y" c3Group c3GroupSubcommand "handlerB"
    (by decide) (by decide) (by decide)
  exact ⟨hmain.1, hmain.2.1, hgrp.1, hgrp.2⟩

/-- Claim C4 counterexample: for a modal-submit custom id "m-a-b" whose first
segment matches no command but does match the flat modal registry, the claim
says the executor receives every segment after the first (["a", "b"]); the
code shifts the segment list and then additionally skips one more via
args.slice(1), so the executor receives only ["b"]. -/
theorem claim_c4_counterexample :
    dispatchComponent [] [("m", ⟨⟨some "m", none⟩, "mh"⟩)] CompKind.modalSubmit "m-a-b"
      = CompOutcome.invoked "mh" ["b"]
    ∧ dispatchComponent [] [("m", ⟨⟨some "m", none⟩, "mh"⟩)] CompKind.modalSubmit "m-a-b"
      ≠ CompOutcome.invoked "mh" ["a", "b"] := by
  refine ⟨by decide, by decide⟩

/-- Claim C4 (amended): for a modal-submit interaction whose first segment
matches no registered command, the dispatcher falls back to the flat modal
registry keyed by that first segment and passes every segment after the first
TWO as trailing arguments (the shift drops the first and slice(1) drops the
second); with no modal registry entry either, the interaction is silently
ignored. -/
theorem claim_c4_amended_modal_fallback (commands : JSMap CommandEntry)
    (modals : JSMap ModalEntry) (s0 : String) (rest : List String) (mdl : ModalEntry)
    (hc : JSMap.get commands s0 = none) :
    (JSMap.get modals s0 = some mdl →
      dispatchComponentArgs commands modals CompKind.modalSubmit (s0 :: rest)
        = CompOutcome.invoked mdl.handler (rest.drop 1))
    ∧ (JSMap.get modals s0 = none →
      dispatchComponentArgs commands modals CompKind.modalSubmit (s0 :: rest)
        = CompOutcome.ignored) := by
  constructor <;> intro hm <;> simp [dispatchComponentArgs, JSMap.getO, argAt, hc, hm]

theorem claim_c4_amended_modal_fallback_witness :
    dispatchComponentArgs [] [("m", ⟨⟨some "m", none⟩, "mh"⟩)] CompKind.modalSubmit
      ["m", "a", "b"] = CompOutcome.invoked "mh" ["b"]
    ∧ dispatchComponentArgs [] [] CompKind.modalSubmit ["m", "a", "b"]
      = CompOutcome.ignored :=
  ⟨(claim_c4_amended_modal_fallback [] [("m", ⟨⟨some "m", none⟩, "mh"⟩)] "m" ["a", "b"]
      ⟨⟨some "m", none⟩, "mh"⟩ rfl).1 (by decide),
   (claim_c4_amended_modal_fallback [] [] "m" ["a", "b"]
      ⟨⟨some "m", none⟩, "mh"⟩ rfl).2 rfl⟩

/-- Claim C10 counterexample: a modal builder with an empty-string custom id
and a title present. The claim's keying rule selects the (present) custom id,
yet loadModalsFrom inserts nothing: the nullish coalescing keeps the empty
custom id and the falsy check then skips the modal entirely. -/
theorem claim_c10_counterexample :
    loadModalsFrom [] [⟨⟨some "", some "T"⟩, "mh"⟩] = []
    ∧ claimedModalKey ⟨some "", some "T"⟩ = some ""
    ∧ modalRegistryKey ⟨some "", some "T"⟩ = none := by
  refine ⟨by decide, by decide, by decide⟩

/-- Claim C10 (amended): the registry key is the builder's custom id when that
is non-nullish, otherwise the builder's title; the modal is silently skipped
when the value so selected is nullish or the empty string - in particular a
builder whose custom id is the empty string is skipped even when a title is
present, and a skipped modal is never inserted into the registry. -/
theorem claim_c10_amended_modal_key (d : ModalBuilderData) (exec : String)
    (reg : JSMap ModalEntry) :
    (∀ c, d.custom_id = some c → c ≠ "" → modalRegistryKey d = some c)
    ∧ (∀ t, d.custom_id = none → d.title = some t → t ≠ "" → modalRegistryKey d = some t)
    ∧ (d.custom_id = some "" → modalRegistryKey d = none)
    ∧ (d.custom_id = none → (d.title = none ∨ d.title = some "") →
        modalRegistryKey d = none)
    ∧ (modalRegistryKey d = none → loadModalsFrom reg [⟨d, exec⟩] = reg)
    ∧ (∀ k, modalRegistryKey d = some k →
        JSMap.get (loadModalsFrom reg [⟨d, exec⟩]) k = some ⟨d, exec⟩) := by
  refine ⟨?_, ?_, ?_, ?_, ?_, ?_⟩
  · intro c hcid hne
    simp [modalRegistryKey, hcid, hne]
  · intro t hcid ht hne
    simp [modalRegistryKey, hcid, ht, hne]
  · intro hcid
    simp [modalRegistryKey, hcid]
  · intro hcid ht
    rcases ht with ht | ht <;> simp [modalRegistryKey, hcid, ht]
  · intro hk
    simp [loadModalsFrom, hk]
  · intro k hk
    simp [loadModalsFrom, hk, JSMap.get_set]

theorem claim_c10_amended_modal_key_witness :
    modalRegistryKey ⟨some "id1", some "T"⟩ = some "id1"
    ∧ modalRegistryKey ⟨none, some "T"⟩ = some "T"
    ∧ modalRegistryKey ⟨some "", some "T"⟩ = none
    ∧ modalRegistryKey ⟨none, none⟩ = none
    ∧ loadModalsFrom [] [⟨⟨some "", some "T"⟩, "mh"⟩] = []
    ∧ JSMap.get (loadModalsFrom [] [⟨⟨some "id1", some "T"⟩, "mh"⟩]) "id1"
      = some ⟨⟨some "id1", some "T"⟩, "mh"⟩ :=
  ⟨(claim_c10_amended_modal_key ⟨some "id1", some "T"⟩ "mh" []).1 "id1" rfl (by decide),
   (claim_c10_amended_modal_key ⟨none, some "T"⟩ "mh" []).2.1 "T" rfl rfl (by decide),
   (claim_c10_amended_modal_key ⟨some "", some "T"⟩ "mh" []).2.2.1 rfl,
   (claim_c10_amended_modal_key ⟨none, none⟩ "mh" []).2.2.2.1 rfl (Or.inl rfl),
   (claim_c10_amended_modal_key ⟨some "", some "T"⟩ "mh" []).2.2.2.2.1 (by decide),
   (claim_c10_amended_modal_key ⟨some "id1", some "T"⟩ "mh" []).2.2.2.2.2 "id1" (by decide)⟩

end MadeSimple
